import Mathlib

/-!
Verification of the Tahlia scoped context manager
(src/src/python/tahlia_core.py and src/src/python/tahlia_bridge.py).

The scene host (Blender's `bpy` state) is modelled as an explicit record of
the fields the two Python classes read and write: object names, the selection,
the active object, the interaction mode, viewport shading, the scene
collections with their `hide_viewport` flags, and the miscellaneous read-only
fields that go into a captured snapshot.  A captured context dictionary is
modelled by the `Snapshot` structure; a missing dictionary key is represented
by the corresponding falsy default (empty string / empty list / `none`),
matching Python truthiness tests such as `if context.get('active_object'):`.

Caller-supplied operations are functions `Host → Host × Bool`: the resulting
host state together with `true` when the operation completed without raising
and `false` when it raised after (possibly) mutating the host.  Public
manager entry points that can let an exception escape return `Option Bool`,
with `none` marking an escaped exception.

The error-message bookkeeping of `TahliaBridge` (`last_error`) and logging are
not modelled: they are write-only diagnostics with no bearing on the verified
properties.
-/

namespace Tahlia

/-- Scene host state: the slice of Blender global state read and written by
the context manager. `objects` are the names in `bpy.data.objects`,
`selected` the names of `bpy.context.selected_objects` (in selection order),
`active` the active object name (if any), `allowedModes` the modes the host
currently accepts in `bpy.ops.object.mode_set`, `hasShading`/`hasOverlay`
model the `hasattr(bpy.context.space_data, ...)` tests, and `collections`
lists the scene's child collections as (name, hide_viewport) pairs. -/
structure Host where
  objects : List String
  selected : List String
  active : Option String
  viewLayer : String
  mode : String
  allowedModes : List String
  hasShading : Bool
  shading : String
  hasOverlay : Bool
  showWireframes : Bool
  collections : List (String × Bool)
  isRendering : Bool
  sceneName : String
  frameCurrent : Nat
  renderEngine : String
deriving Repr, DecidableEq

/-- Viewport settings sub-dictionary of a captured context; a key that is
absent from the Python dict is `none`. -/
structure ViewportSettings where
  shading : Option String
  overlay : Option String
deriving Repr, DecidableEq

/-- A captured context dictionary. The Python code encodes the absence of an
active object as the empty string, so `active_object : String` with `""`
meaning none. -/
structure Snapshot where
  selected_objects : List String
  active_object : String
  view_layer : String
  mode : String
  viewport_settings : ViewportSettings
  visible_collections : List String
  is_rendering : Bool
  custom_state : List (String × String)
deriving Repr, DecidableEq

/-- Names of the currently visible scene collections:
`[col.name for col in bpy.context.scene.collection.children if not col.hide_viewport]`
(shared verbatim by `TahliaCore.capture_context` and
`TahliaBridge._capture_visible_collections`). -/
def captureVisibleCollections (h : Host) : List String :=
  ((h.collections.filter (fun c => !c.2)).map Prod.fst)

/-- Embedding of `TahliaBridge._capture_viewport_settings`: each key is added
only when the corresponding `hasattr` test succeeds. -/
def bridgeCaptureViewportSettings (h : Host) : ViewportSettings :=
  { shading := if h.hasShading then some h.shading else none
    overlay := if h.hasOverlay then some (if h.showWireframes then "WIREFRAME" else "SOLID") else none }

/-- Embedding of `TahliaBridge._capture_custom_state`. -/
def bridgeCaptureCustomState (h : Host) : List (String × String) :=
  [("scene_name", h.sceneName),
   ("frame_current", toString h.frameCurrent),
   ("render_engine", h.renderEngine)]

/-- Embedding of `TahliaBridge.capture_context` on a host whose field reads
succeed (the fallible variant is `bridgeCaptureContextR` below). -/
def bridgeCaptureContext (h : Host) : Snapshot :=
  { selected_objects := h.selected
    active_object := match h.active with | some n => n | none => ""
    view_layer := h.viewLayer
    mode := h.mode
    viewport_settings := bridgeCaptureViewportSettings h
    visible_collections := captureVisibleCollections h
    is_rendering := h.isRendering
    custom_state := bridgeCaptureCustomState h }

/-- Embedding of `TahliaCore.capture_context` on a host whose field reads
succeed. The core variant defaults `shading` to `'SOLID'` instead of omitting
it, always reads the overlay flag, and stores an empty `custom_state`. -/
def coreCaptureContext (h : Host) : Snapshot :=
  { selected_objects := h.selected
    active_object := match h.active with | some n => n | none => ""
    view_layer := h.viewLayer
    mode := h.mode
    viewport_settings :=
      { shading := some (if h.hasShading then h.shading else "SOLID")
        overlay := some (if h.showWireframes then "WIREFRAME" else "SOLID") }
    visible_collections := captureVisibleCollections h
    is_rendering := h.isRendering
    custom_state := [] }

/-- Host field reads for the fallible capture model: `none` means the read of
that field raised. Used to verify the error-handling contract of
`capture_context`. -/
structure HostReads where
  selectedRead : Option (List String)
  activeRead : Option (Option String)
  viewLayerRead : Option String
  modeRead : Option String
  hasShading : Bool
  shadingRead : Option String
  hasOverlay : Bool
  overlayRead : Option Bool
  visibleColsRead : Option (List String)
  isRenderingRead : Option Bool
  customRead : Option (String × Nat × String)
deriving Repr, DecidableEq

/-- Fallible embedding of `TahliaBridge._capture_viewport_settings`: the
helper body runs under its own `try`, so a raising read aborts the helper and
returns the keys accumulated so far. -/
def bridgeCaptureViewportSettingsR (r : HostReads) : ViewportSettings :=
  if r.hasShading then
    match r.shadingRead with
    | none => { shading := none, overlay := none }
    | some sh =>
      if r.hasOverlay then
        match r.overlayRead with
        | none => { shading := some sh, overlay := none }
        | some w => { shading := some sh, overlay := some (if w then "WIREFRAME" else "SOLID") }
      else { shading := some sh, overlay := none }
  else
    if r.hasOverlay then
      match r.overlayRead with
      | none => { shading := none, overlay := none }
      | some w => { shading := none, overlay := some (if w then "WIREFRAME" else "SOLID") }
    else { shading := none, overlay := none }

/-- Fallible embedding of `TahliaBridge.capture_context`. The helper fields
(`viewport_settings`, `visible_collections`, `custom_state`) swallow their own
read failures and default locally, but the five top-level reads
(`selected_objects`, `active_object`, `view_layer`, `mode`, `is_rendering`)
sit directly under the single outer `try`: if any of them raises the whole
function returns the empty dict `\x7b\x7d`, modelled as `none`. The function
itself never raises. -/
def bridgeCaptureContextR (r : HostReads) : Option Snapshot :=
  match r.selectedRead, r.activeRead, r.viewLayerRead, r.modeRead, r.isRenderingRead with
  | some sel, some act, some vl, some md, some ir =>
    some { selected_objects := sel
           active_object := match act with | some n => n | none => ""
           view_layer := vl
           mode := md
           viewport_settings := bridgeCaptureViewportSettingsR r
           visible_collections := r.visibleColsRead.getD []
           is_rendering := ir
           custom_state :=
             match r.customRead with
             | some (sn, fc, re) =>
               [("scene_name", sn), ("frame_current", toString fc), ("render_engine", re)]
             | none => [] }
  | _, _, _, _, _ => none

/-- Fallible embedding of `TahliaCore.capture_context`. The core variant has
no per-field helpers: every read — the five top-level fields and also the
viewport shading/overlay and visible-collection reads — sits under the one
outer `try`, so a failure of any of them makes the whole function return the
empty dict `\x7b\x7d`, modelled as `none`. When
`hasattr(bpy.context.space_data, 'shading')` is false the shading tag is
defaulted to `'SOLID'` without performing a read; the overlay flag is always
read. The function itself never raises. -/
def coreCaptureContextR (r : HostReads) : Option Snapshot :=
  match r.selectedRead, r.activeRead, r.viewLayerRead, r.modeRead,
        (if r.hasShading then r.shadingRead else some "SOLID"),
        r.overlayRead, r.visibleColsRead, r.isRenderingRead with
  | some sel, some act, some vl, some md, some sh, some ov, some vc, some ir =>
    some { selected_objects := sel
           active_object := match act with | some n => n | none => ""
           view_layer := vl
           mode := md
           viewport_settings :=
             { shading := some sh
               overlay := some (if ov then "WIREFRAME" else "SOLID") }
           visible_collections := vc
           is_rendering := ir
           custom_state := [] }
  | _, _, _, _, _, _, _, _ => none

/-- Restore step (a): set the active object if the snapshot recorded one and
it still exists. Embeds
`if context.get('active_object'): if context['active_object'] in bpy.data.objects: ...`
(identical in `TahliaCore.restore_context` and `TahliaBridge.restore_context`). -/
def restoreActive (s : Snapshot) (h : Host) : Host :=
  if s.active_object ≠ "" then
    if s.active_object ∈ h.objects then
      { h with active := some s.active_object }
    else h
  else h

/-- The re-selection loop shared by both restore implementations:
`for obj_name in context['selected_objects']: if obj_name in bpy.data.objects: ... select_set(True)`.
Selecting an already-selected object is a no-op; selecting a fresh one appends
it to the selection. -/
def selectFold (names : List String) (h : Host) : Host :=
  match names with
  | [] => h
  | n :: rest =>
    if n ∈ h.objects then
      if n ∈ h.selected then selectFold rest h
      else selectFold rest { h with selected := h.selected ++ [n] }
    else selectFold rest h

/-- Restore step (b) in `TahliaBridge.restore_context`: when the snapshot's
selection list is truthy (non-empty), deselect everything and re-select the
recorded names that still exist; a falsy (empty) list skips the whole block,
including the deselect. -/
def bridgeRestoreSelected (s : Snapshot) (h : Host) : Host :=
  if s.selected_objects ≠ [] then
    selectFold s.selected_objects { h with selected := [] }
  else h

/-- Restore step (b) in `TahliaCore.restore_context`: same guard and loop but
with no deselect, so recorded names are added to whatever is currently
selected. -/
def coreRestoreSelected (s : Snapshot) (h : Host) : Host :=
  if s.selected_objects ≠ [] then
    selectFold s.selected_objects h
  else h

/-- Restore step (c), identical in both classes: attempt the recorded mode
when it is truthy and an active object exists, swallowing
mode-not-available failures (`except: pass`). -/
def restoreMode (s : Snapshot) (h : Host) : Host :=
  if s.mode ≠ "" then
    match h.active with
    | some _ =>
      if s.mode ∈ h.allowedModes then { h with mode := s.mode } else h
    | none => h
  else h

/-- Restore step (d) in `TahliaBridge._restore_viewport_settings`. -/
def bridgeRestoreViewport (vs : ViewportSettings) (h : Host) : Host :=
  if h.hasShading then
    match vs.shading with
    | some sh => { h with shading := sh }
    | none => h
  else h

/-- Restore step (d) in `TahliaCore.restore_context`: guarded additionally by
the truthiness of the whole `viewport_settings` dict. -/
def coreRestoreViewport (vs : ViewportSettings) (h : Host) : Host :=
  if h.hasShading ∧ (vs.shading ≠ none ∨ vs.overlay ≠ none) then
    match vs.shading with
    | some sh => { h with shading := sh }
    | none => h
  else h

/-- Restore step (e) in `TahliaBridge._restore_visible_collections`:
`for col in children: col.hide_viewport = col.name not in collections`. -/
def restoreVisibleCollections (cols : List String) (h : Host) : Host :=
  { h with collections := h.collections.map (fun c => (c.1, decide (c.1 ∉ cols))) }

/-- Embedding of `TahliaBridge.restore_context`: the five restore steps in
source order. In this model host mutations are total, so the outer `try`
never fires and the function returns `true`. -/
def bridgeRestoreContext (s : Snapshot) (h : Host) : Host × Bool :=
  let h1 := restoreActive s h
  let h2 := bridgeRestoreSelected s h1
  let h3 := restoreMode s h2
  let h4 := bridgeRestoreViewport s.viewport_settings h3
  let h5 := restoreVisibleCollections s.visible_collections h4
  (h5, true)

/-- Embedding of `TahliaCore.restore_context`: active object, additive
re-selection, mode, viewport shading. The core variant has no collection
restore step. -/
def coreRestoreContext (s : Snapshot) (h : Host) : Host × Bool :=
  let h1 := restoreActive s h
  let h2 := coreRestoreSelected s h1
  let h3 := restoreMode s h2
  let h4 := coreRestoreViewport s.viewport_settings h3
  (h4, true)

/-- Manager state shared by `TahliaCore` and `TahliaBridge`: the context
stack, the process-wide preservation toggle, and the stack size limit. -/
structure Manager where
  context_stack : List Snapshot
  context_preservation : Bool
  max_context_stack_size : Nat
deriving Repr, DecidableEq

/-- Embedding of `set_max_context_stack_size` (identical in both classes). -/
def setMaxContextStackSize (m : Manager) (k : Nat) : Manager :=
  { m with max_context_stack_size := k }

/-- Embedding of `clear_context_stack` (identical in both classes). -/
def clearContextStack (m : Manager) : Manager :=
  { m with context_stack := [] }

/-- Embedding of `TahliaCore.push_context`. -/
def corePushContext (m : Manager) (h : Host) : Manager × Bool :=
  if m.context_stack.length < m.max_context_stack_size then
    ({ m with context_stack := m.context_stack ++ [coreCaptureContext h] }, true)
  else (m, false)

/-- Embedding of `TahliaBridge.push_context`. -/
def bridgePushContext (m : Manager) (h : Host) : Manager × Bool :=
  if m.context_stack.length < m.max_context_stack_size then
    ({ m with context_stack := m.context_stack ++ [bridgeCaptureContext h] }, true)
  else (m, false)

/-- Embedding of `TahliaCore.pop_context`: `list.pop()` removes the last
element, which is then restored. -/
def corePopContext (m : Manager) (h : Host) : Manager × Host × Bool :=
  match m.context_stack.getLast? with
  | some c =>
    ({ m with context_stack := m.context_stack.dropLast },
     (coreRestoreContext c h).1, (coreRestoreContext c h).2)
  | none => (m, h, false)

/-- Embedding of `TahliaBridge.pop_context`. -/
def bridgePopContext (m : Manager) (h : Host) : Manager × Host × Bool :=
  match m.context_stack.getLast? with
  | some c =>
    ({ m with context_stack := m.context_stack.dropLast },
     (bridgeRestoreContext c h).1, (bridgeRestoreContext c h).2)
  | none => (m, h, false)

/-- Embedding of `TahliaCore.preserve_context`. An operation is a function
`Host → Host × Bool` returning the mutated host and whether it completed
without raising. The result is the final host state plus `some b` for a
returned boolean or `none` when an exception escapes to the caller: the
disabled branch of the core variant runs `operation()` bare, outside any
`try`, so a raising operation propagates. -/
def corePreserveContext (m : Manager) (op : Host → Host × Bool) (h : Host) :
    Host × Option Bool :=
  if m.context_preservation = false then
    if (op h).2 then ((op h).1, some true) else ((op h).1, none)
  else
    let saved := coreCaptureContext h
    if (op h).2 then
      ((coreRestoreContext saved (op h).1).1, some (coreRestoreContext saved (op h).1).2)
    else
      ((coreRestoreContext saved (op h).1).1, some false)

/-- Embedding of `TahliaBridge.preserve_context`: same shape as the core
variant, except that the disabled branch wraps the operation in a
`try`/`except` and returns `False` on a raise, so no exception escapes. -/
def bridgePreserveContext (m : Manager) (op : Host → Host × Bool) (h : Host) :
    Host × Option Bool :=
  if m.context_preservation = false then
    if (op h).2 then ((op h).1, some true) else ((op h).1, some false)
  else
    let saved := bridgeCaptureContext h
    if (op h).2 then
      ((bridgeRestoreContext saved (op h).1).1, some (bridgeRestoreContext saved (op h).1).2)
    else
      ((bridgeRestoreContext saved (op h).1).1, some false)

/-! Supporting lemmas: each restore step only writes the host field it is
responsible for, leaving the others unchanged. -/

@[simp] theorem restoreActive_objects (s : Snapshot) (h : Host) :
    (restoreActive s h).objects = h.objects := by
  unfold restoreActive
  split
  · split <;> rfl
  · rfl

@[simp] theorem restoreActive_selected (s : Snapshot) (h : Host) :
    (restoreActive s h).selected = h.selected := by
  unfold restoreActive
  split
  · split <;> rfl
  · rfl

@[simp] theorem restoreActive_collections (s : Snapshot) (h : Host) :
    (restoreActive s h).collections = h.collections := by
  unfold restoreActive
  split
  · split <;> rfl
  · rfl

/-- Characterization of restore step (a): the active object is set exactly
when the snapshot recorded a non-empty name that still exists. -/
theorem restoreActive_active (s : Snapshot) (h : Host) :
    (restoreActive s h).active =
      if s.active_object ≠ "" ∧ s.active_object ∈ h.objects then some s.active_object
      else h.active := by
  unfold restoreActive
  by_cases h1 : s.active_object = ""
  · simp [h1]
  · by_cases h2 : s.active_object ∈ h.objects <;> simp [h1, h2]

@[simp] theorem selectFold_objects (l : List String) :
    ∀ h : Host, (selectFold l h).objects = h.objects := by
  induction l with
  | nil => intro h; rfl
  | cons n t ih =>
    intro h
    unfold selectFold
    by_cases h1 : n ∈ h.objects
    · by_cases h2 : n ∈ h.selected
      · simp [h1, h2, ih]
      · simp [h1, h2, ih]
    · simp [h1, ih]

@[simp] theorem selectFold_active (l : List String) :
    ∀ h : Host, (selectFold l h).active = h.active := by
  induction l with
  | nil => intro h; rfl
  | cons n t ih =>
    intro h
    unfold selectFold
    by_cases h1 : n ∈ h.objects
    · by_cases h2 : n ∈ h.selected
      · simp [h1, h2, ih]
      · simp [h1, h2, ih]
    · simp [h1, ih]

@[simp] theorem selectFold_collections (l : List String) :
    ∀ h : Host, (selectFold l h).collections = h.collections := by
  induction l with
  | nil => intro h; rfl
  | cons n t ih =>
    intro h
    unfold selectFold
    by_cases h1 : n ∈ h.objects
    · by_cases h2 : n ∈ h.selected
      · simp [h1, h2, ih]
      · simp [h1, h2, ih]
    · simp [h1, ih]

/-- The re-selection loop on a selection that contains none of the looped
names appends exactly the names that still exist, in order. -/
theorem selectFold_selected_fresh (l : List String) :
    ∀ h : Host, l.Nodup → (∀ n ∈ l, n ∉ h.selected) →
      (selectFold l h).selected = h.selected ++ l.filter (fun n => decide (n ∈ h.objects)) := by
  induction l with
  | nil => intro h _ _; simp [selectFold]
  | cons n t ih =>
    intro h hnd hfresh
    have hn : n ∉ h.selected := hfresh n (List.mem_cons_self n t)
    have hndt : t.Nodup := hnd.of_cons
    have hnt : n ∉ t := (List.nodup_cons.mp hnd).1
    unfold selectFold
    by_cases h1 : n ∈ h.objects
    · rw [if_pos h1, if_neg hn]
      have hfresh2 : ∀ m ∈ t, m ∉ ({ h with selected := h.selected ++ [n] } : Host).selected := by
        intro m hm hmem
        rcases List.mem_append.mp hmem with hL | hR
        · exact hfresh m (List.mem_cons_of_mem n hm) hL
        · have hmn : m = n := by simpa using hR
          exact hnt (hmn ▸ hm)
      rw [ih { h with selected := h.selected ++ [n] } hndt hfresh2]
      simp [h1, List.append_assoc]
    · rw [if_neg h1]
      rw [ih h hndt (fun m hm => hfresh m (List.mem_cons_of_mem n hm))]
      simp [h1]

/-- The re-selection loop is the identity when every looped name is already
selected. -/
theorem selectFold_eq_self (l : List String) :
    ∀ h : Host, (∀ n ∈ l, n ∈ h.selected) → selectFold l h = h := by
  induction l with
  | nil => intro h _; rfl
  | cons n t ih =>
    intro h hall
    have hn : n ∈ h.selected := hall n (List.mem_cons_self n t)
    unfold selectFold
    by_cases h1 : n ∈ h.objects
    · rw [if_pos h1, if_pos hn]
      exact ih h (fun m hm => hall m (List.mem_cons_of_mem n hm))
    · rw [if_neg h1]
      exact ih h (fun m hm => hall m (List.mem_cons_of_mem n hm))

/-- On a duplicate-free name list, the re-selection loop appends to the
current selection, in order, exactly the names that still exist and are not
already selected. -/
theorem selectFold_selected_nodup (l : List String) :
    ∀ h : Host, l.Nodup →
      (selectFold l h).selected
        = h.selected
            ++ l.filter (fun n => decide (n ∈ h.objects) && decide (n ∉ h.selected)) := by
  induction l with
  | nil => intro h _; simp [selectFold]
  | cons n t ih =>
    intro h hnd
    have hndt : t.Nodup := hnd.of_cons
    have hnt : n ∉ t := (List.nodup_cons.mp hnd).1
    unfold selectFold
    by_cases h1 : n ∈ h.objects
    · by_cases h2 : n ∈ h.selected
      · rw [if_pos h1, if_pos h2, ih h hndt]
        simp [h2]
      · rw [if_pos h1, if_neg h2, ih { h with selected := h.selected ++ [n] } hndt]
        have hcongr :
            t.filter (fun m =>
                decide (m ∈ ({ h with selected := h.selected ++ [n] } : Host).objects)
                  && decide (m ∉ ({ h with selected := h.selected ++ [n] } : Host).selected))
              = t.filter (fun m => decide (m ∈ h.objects) && decide (m ∉ h.selected)) := by
          apply List.filter_congr
          intro m hm
          have hmn : m ≠ n := fun he => hnt (he ▸ hm)
          simp [hmn]
        rw [hcongr]
        simp [h1, h2]
    · rw [if_neg h1, ih h hndt]
      simp [h1]

@[simp] theorem bridgeRestoreSelected_objects (s : Snapshot) (h : Host) :
    (bridgeRestoreSelected s h).objects = h.objects := by
  unfold bridgeRestoreSelected
  split
  · simp
  · rfl

@[simp] theorem bridgeRestoreSelected_active (s : Snapshot) (h : Host) :
    (bridgeRestoreSelected s h).active = h.active := by
  unfold bridgeRestoreSelected
  split
  · simp
  · rfl

@[simp] theorem bridgeRestoreSelected_collections (s : Snapshot) (h : Host) :
    (bridgeRestoreSelected s h).collections = h.collections := by
  unfold bridgeRestoreSelected
  split
  · simp
  · rfl

@[simp] theorem coreRestoreSelected_objects (s : Snapshot) (h : Host) :
    (coreRestoreSelected s h).objects = h.objects := by
  unfold coreRestoreSelected
  split <;> simp

@[simp] theorem coreRestoreSelected_active (s : Snapshot) (h : Host) :
    (coreRestoreSelected s h).active = h.active := by
  unfold coreRestoreSelected
  split <;> simp

@[simp] theorem coreRestoreSelected_collections (s : Snapshot) (h : Host) :
    (coreRestoreSelected s h).collections = h.collections := by
  unfold coreRestoreSelected
  split <;> simp

@[simp] theorem restoreMode_selected (s : Snapshot) (h : Host) :
    (restoreMode s h).selected = h.selected := by
  unfold restoreMode
  split
  · split
    · split <;> rfl
    · rfl
  · rfl

@[simp] theorem restoreMode_active (s : Snapshot) (h : Host) :
    (restoreMode s h).active = h.active := by
  unfold restoreMode
  split
  · split
    · split <;> rfl
    · rfl
  · rfl

@[simp] theorem restoreMode_collections (s : Snapshot) (h : Host) :
    (restoreMode s h).collections = h.collections := by
  unfold restoreMode
  split
  · split
    · split <;> rfl
    · rfl
  · rfl

@[simp] theorem bridgeRestoreViewport_selected (vs : ViewportSettings) (h : Host) :
    (bridgeRestoreViewport vs h).selected = h.selected := by
  unfold bridgeRestoreViewport
  split
  · split <;> rfl
  · rfl

@[simp] theorem bridgeRestoreViewport_active (vs : ViewportSettings) (h : Host) :
    (bridgeRestoreViewport vs h).active = h.active := by
  unfold bridgeRestoreViewport
  split
  · split <;> rfl
  · rfl

@[simp] theorem bridgeRestoreViewport_collections (vs : ViewportSettings) (h : Host) :
    (bridgeRestoreViewport vs h).collections = h.collections := by
  unfold bridgeRestoreViewport
  split
  · split <;> rfl
  · rfl

@[simp] theorem coreRestoreViewport_selected (vs : ViewportSettings) (h : Host) :
    (coreRestoreViewport vs h).selected = h.selected := by
  unfold coreRestoreViewport
  split
  · split <;> rfl
  · rfl

@[simp] theorem coreRestoreViewport_active (vs : ViewportSettings) (h : Host) :
    (coreRestoreViewport vs h).active = h.active := by
  unfold coreRestoreViewport
  split
  · split <;> rfl
  · rfl

@[simp] theorem coreRestoreViewport_collections (vs : ViewportSettings) (h : Host) :
    (coreRestoreViewport vs h).collections = h.collections := by
  unfold coreRestoreViewport
  split
  · split <;> rfl
  · rfl

@[simp] theorem restoreVisibleCollections_selected (cols : List String) (h : Host) :
    (restoreVisibleCollections cols h).selected = h.selected := rfl

@[simp] theorem restoreVisibleCollections_active (cols : List String) (h : Host) :
    (restoreVisibleCollections cols h).active = h.active := rfl

/-! Characterizations of the full restore pipelines. -/

/-- Only the selection step of the bridge restore pipeline touches the
selection. -/
theorem bridgeRestoreContext_selected (s : Snapshot) (h : Host) :
    ((bridgeRestoreContext s h).1).selected
      = (bridgeRestoreSelected s (restoreActive s h)).selected := by
  simp [bridgeRestoreContext]

/-- Only the active-object step of the bridge restore pipeline touches the
active object. -/
theorem bridgeRestoreContext_active (s : Snapshot) (h : Host) :
    ((bridgeRestoreContext s h).1).active
      = if s.active_object ≠ "" ∧ s.active_object ∈ h.objects then some s.active_object
        else h.active := by
  simp [bridgeRestoreContext, restoreActive_active]

/-- The bridge restore pipeline rewrites every current collection's hidden
flag from the snapshot's visible set. -/
theorem bridgeRestoreContext_collections (s : Snapshot) (h : Host) :
    ((bridgeRestoreContext s h).1).collections
      = h.collections.map (fun c => (c.1, decide (c.1 ∉ s.visible_collections))) := by
  simp [bridgeRestoreContext, restoreVisibleCollections]

/-- Only the selection step of the core restore pipeline touches the
selection. -/
theorem coreRestoreContext_selected (s : Snapshot) (h : Host) :
    ((coreRestoreContext s h).1).selected
      = (coreRestoreSelected s (restoreActive s h)).selected := by
  simp [coreRestoreContext]

/-- Only the active-object step of the core restore pipeline touches the
active object. -/
theorem coreRestoreContext_active (s : Snapshot) (h : Host) :
    ((coreRestoreContext s h).1).active
      = if s.active_object ≠ "" ∧ s.active_object ∈ h.objects then some s.active_object
        else h.active := by
  simp [coreRestoreContext, restoreActive_active]

/-- The core restore pipeline has no collection-visibility step: the host's
collections come through unchanged. -/
theorem coreRestoreContext_collections (s : Snapshot) (h : Host) :
    ((coreRestoreContext s h).1).collections = h.collections := by
  simp [coreRestoreContext]

/-- Re-applying the captured visibility flags over an unchanged collection
list with distinct names is the identity. -/
theorem restore_cols_eq (cols : List (String × Bool))
    (hnd : (cols.map Prod.fst).Nodup) :
    cols.map (fun c => (c.1, decide (c.1 ∉ (cols.filter (fun d => !d.2)).map Prod.fst)))
      = cols := by
  have key : ∀ c ∈ cols, (c.1 ∈ (cols.filter (fun d => !d.2)).map Prod.fst) ↔ c.2 = false := by
    intro c hc
    constructor
    · intro hmem
      rcases List.mem_map.mp hmem with ⟨d, hd, hfst⟩
      rcases List.mem_filter.mp hd with ⟨hdmem, hdp⟩
      have hdc : d = c := List.inj_on_of_nodup_map hnd hdmem hc hfst
      subst hdc
      simpa using hdp
    · intro h2
      exact List.mem_map.mpr ⟨c, List.mem_filter.mpr ⟨hc, by simp [h2]⟩, rfl⟩
  have step : ∀ c ∈ cols,
      (c.1, decide (c.1 ∉ (cols.filter (fun d => !d.2)).map Prod.fst)) = c := by
    intro c hc
    obtain ⟨c1, c2⟩ := c
    have hk := key (c1, c2) hc
    cases c2
    · have hm : c1 ∈ (cols.filter (fun d => !d.2)).map Prod.fst := hk.mpr rfl
      simp [hm]
    · have hm : c1 ∉ (cols.filter (fun d => !d.2)).map Prod.fst := by
        intro hmem
        exact absurd (hk.mp hmem) (by simp)
      simp [hm]
  calc cols.map (fun c => (c.1, decide (c.1 ∉ (cols.filter (fun d => !d.2)).map Prod.fst)))
      = cols.map id := List.map_congr_left step
    _ = cols := List.map_id cols

/-! Concrete sample states used by witnesses and counterexamples. -/

/-- A well-formed sample host: three objects, two of them selected, one
active, two collections of which one is hidden. -/
def hostW : Host :=
  { objects := ["Cube", "Sphere", "Tree1"]
    selected := ["Cube", "Sphere"]
    active := some "Cube"
    viewLayer := "ViewLayer"
    mode := "OBJECT"
    allowedModes := ["OBJECT", "EDIT"]
    hasShading := true
    shading := "SOLID"
    hasOverlay := true
    showWireframes := false
    collections := [("CollA", false), ("CollB", true)]
    isRendering := false
    sceneName := "Scene"
    frameCurrent := 1
    renderEngine := "CYCLES" }

/-- A sample operation that mutates the selection and completes normally. -/
def opOk : Host → Host × Bool := fun h => ({ h with selected := ["Sphere"] }, true)

/-- A sample operation that clears the selection and then raises. -/
def opRaise : Host → Host × Bool := fun h => ({ h with selected := [] }, false)

/-- A fresh manager with context preservation enabled. -/
def mgrOn : Manager :=
  { context_stack := [], context_preservation := true, max_context_stack_size := 10 }

/-- A fresh manager with context preservation disabled. -/
def mgrOff : Manager :=
  { context_stack := [], context_preservation := false, max_context_stack_size := 10 }

/-- The snapshot the bridge captures on `hostW`. -/
def snapW : Snapshot := bridgeCaptureContext hostW

/-- A manager whose stack already holds as many snapshots as its limit
allows. -/
def mgrFull : Manager :=
  { context_stack := [snapW], context_preservation := true, max_context_stack_size := 1 }

/-! Claim theorems. -/

/-- C1. With context preservation enabled, `preserve_context` captures the
pre-operation snapshot, runs the operation, and always restores that
snapshot afterwards; the overall result is `some (ok && restored)`: `true`
exactly when the operation completed without raising and the subsequent
restore call returned `true`, and `false` whenever the operation raised,
regardless of the restore outcome. Stated for both `TahliaCore` and
`TahliaBridge`. -/
theorem claim1_preserve_enabled (m : Manager) (op : Host → Host × Bool) (h : Host)
    (hp : m.context_preservation = true) :
    corePreserveContext m op h =
      ((coreRestoreContext (coreCaptureContext h) (op h).1).1,
       some ((op h).2 && (coreRestoreContext (coreCaptureContext h) (op h).1).2)) ∧
    bridgePreserveContext m op h =
      ((bridgeRestoreContext (bridgeCaptureContext h) (op h).1).1,
       some ((op h).2 && (bridgeRestoreContext (bridgeCaptureContext h) (op h).1).2)) := by
  constructor
  · unfold corePreserveContext
    rw [hp]
    by_cases hop : (op h).2 <;> simp [hop]
  · unfold bridgePreserveContext
    rw [hp]
    by_cases hop : (op h).2 <;> simp [hop]

/-- Witness for C1 at a concrete manager, operation and host, including the
raising path. -/
theorem claim1_preserve_enabled_witness :
    mgrOn.context_preservation = true ∧
    corePreserveContext mgrOn opRaise hostW =
      ((coreRestoreContext (coreCaptureContext hostW) (opRaise hostW).1).1,
       some ((opRaise hostW).2 &&
         (coreRestoreContext (coreCaptureContext hostW) (opRaise hostW).1).2)) ∧
    bridgePreserveContext mgrOn opRaise hostW =
      ((bridgeRestoreContext (bridgeCaptureContext hostW) (opRaise hostW).1).1,
       some ((opRaise hostW).2 &&
         (bridgeRestoreContext (bridgeCaptureContext hostW) (opRaise hostW).1).2)) :=
  ⟨rfl, (claim1_preserve_enabled mgrOn opRaise hostW rfl).1,
        (claim1_preserve_enabled mgrOn opRaise hostW rfl).2⟩

/-- C2 counterexample. The claim says that with preservation disabled no
exception escapes the manager's public operation. In
`TahliaCore.preserve_context` the disabled branch runs `operation()` outside
any `try`, so a raising operation propagates to the caller: the result
component is `none` (escaped exception) rather than `some false`. -/
theorem claim2_counterexample :
    (corePreserveContext mgrOff opRaise hostW).2 = none ∧
    (none : Option Bool) ≠ some false ∧ (none : Option Bool) ≠ some true := by
  refine ⟨rfl, by simp, by simp⟩

/-- C2 amended. With context preservation disabled, both implementations
invoke the operation with no capture and no restore.
`TahliaBridge.preserve_context` returns whether the operation completed
without raising and never lets the exception escape; in
`TahliaCore.preserve_context` the exception escapes to the caller when the
operation raises (result `none`), and `true` is returned otherwise. -/
theorem claim2_preserve_disabled (m : Manager) (op : Host → Host × Bool) (h : Host)
    (hp : m.context_preservation = false) :
    bridgePreserveContext m op h = ((op h).1, some (op h).2) ∧
    corePreserveContext m op h = ((op h).1, if (op h).2 then some true else none) := by
  constructor
  · unfold bridgePreserveContext
    rw [hp]
    by_cases hop : (op h).2 <;> simp [hop]
  · unfold corePreserveContext
    rw [hp]
    by_cases hop : (op h).2 <;> simp [hop]

/-- Witness for the amended C2 at a concrete manager, operation and host. -/
theorem claim2_preserve_disabled_witness :
    mgrOff.context_preservation = false ∧
    bridgePreserveContext mgrOff opOk hostW = ((opOk hostW).1, some (opOk hostW).2) ∧
    corePreserveContext mgrOff opOk hostW =
      ((opOk hostW).1, if (opOk hostW).2 then some true else none) :=
  ⟨rfl, (claim2_preserve_disabled mgrOff opOk hostW rfl).1,
        (claim2_preserve_disabled mgrOff opOk hostW rfl).2⟩

/-- A snapshot that records an empty selection (as captured on a host with
nothing selected). -/
def snapNoSel : Snapshot :=
  { selected_objects := []
    active_object := ""
    view_layer := "ViewLayer"
    mode := ""
    viewport_settings := { shading := none, overlay := none }
    visible_collections := ["CollA"]
    is_rendering := false
    custom_state := [] }

/-- C3 counterexample. The claim says `restore_context` first clears the
current selection for every snapshot. On a snapshot whose selected-objects
list is empty, `TahliaBridge.restore_context` skips the whole selection
block — including the deselect — because the Python guard
`if context.get('selected_objects'):` is falsy, so the host keeps its
current selection `["Cube", "Sphere"]` instead of the empty selection the
claim requires. -/
theorem claim3_counterexample :
    ((bridgeRestoreContext snapNoSel hostW).1).selected = ["Cube", "Sphere"] ∧
    (["Cube", "Sphere"] : List String) ≠ ([] : List String) :=
  ⟨by decide, by decide⟩

/-- C3 amended. `TahliaBridge.restore_context` always returns `true` in the
absence of a host fault; when the snapshot's selected-objects list is
non-empty it clears the selection and re-selects exactly the recorded
identifiers that still exist (in order, silently skipping missing ones);
when the list is empty the whole selection block is skipped and the host's
selection is left unchanged. `TahliaCore.restore_context` never clears the
selection: it appends to it, in order, exactly the recorded identifiers that
still exist and are not already selected. -/
theorem claim3_restore_selection (s : Snapshot) (h : Host)
    (hnd : s.selected_objects.Nodup) :
    (bridgeRestoreContext s h).2 = true ∧
    (s.selected_objects ≠ [] →
      ((bridgeRestoreContext s h).1).selected
        = s.selected_objects.filter (fun n => decide (n ∈ h.objects))) ∧
    (s.selected_objects = [] → ((bridgeRestoreContext s h).1).selected = h.selected) ∧
    ((coreRestoreContext s h).1).selected
      = h.selected
          ++ s.selected_objects.filter
               (fun n => decide (n ∈ h.objects) && decide (n ∉ h.selected)) := by
  refine ⟨rfl, ?_, ?_, ?_⟩
  · intro hne
    rw [bridgeRestoreContext_selected]
    unfold bridgeRestoreSelected
    rw [if_pos hne]
    rw [selectFold_selected_fresh s.selected_objects _ hnd (by simp)]
    simp
  · intro he
    rw [bridgeRestoreContext_selected]
    unfold bridgeRestoreSelected
    rw [if_neg (by simp [he])]
    simp
  · rw [coreRestoreContext_selected]
    unfold coreRestoreSelected
    by_cases hne : s.selected_objects = []
    · rw [if_neg (by simp [hne])]
      simp [hne]
    · rw [if_pos hne]
      rw [selectFold_selected_nodup s.selected_objects _ hnd]
      have hcongr :
          s.selected_objects.filter (fun n =>
              decide (n ∈ (restoreActive s h).objects)
                && decide (n ∉ (restoreActive s h).selected))
            = s.selected_objects.filter
                (fun n => decide (n ∈ h.objects) && decide (n ∉ h.selected)) := by
        apply List.filter_congr
        intro m hm
        simp
      rw [hcongr, restoreActive_selected]

/-- Witness for the amended C3 on the snapshot captured from the sample
host. -/
theorem claim3_restore_selection_witness :
    snapW.selected_objects.Nodup ∧ snapW.selected_objects ≠ [] ∧
    (bridgeRestoreContext snapW hostW).2 = true ∧
    ((bridgeRestoreContext snapW hostW).1).selected
      = snapW.selected_objects.filter (fun n => decide (n ∈ hostW.objects)) ∧
    ((coreRestoreContext snapW hostW).1).selected
      = hostW.selected
          ++ snapW.selected_objects.filter
               (fun n => decide (n ∈ hostW.objects) && decide (n ∉ hostW.selected)) :=
  ⟨by decide, by decide,
   (claim3_restore_selection snapW hostW (by decide)).1,
   (claim3_restore_selection snapW hostW (by decide)).2.1 (by decide),
   (claim3_restore_selection snapW hostW (by decide)).2.2.2⟩

/-- Host field reads that all succeed, for the capture error-handling
claims. -/
def readsOk : HostReads :=
  { selectedRead := some ["Cube"]
    activeRead := some (some "Cube")
    viewLayerRead := some "ViewLayer"
    modeRead := some "OBJECT"
    hasShading := true
    shadingRead := some "SOLID"
    hasOverlay := true
    overlayRead := some false
    visibleColsRead := some ["CollA"]
    isRenderingRead := some false
    customRead := some ("Scene", 1, "CYCLES") }

/-- Host field reads where just the `is_rendering` read raises. -/
def readsBad : HostReads := { readsOk with isRenderingRead := none }

/-- C4 counterexample. The claim says a failed read of any individual field
only omits or defaults that field while a snapshot with the remaining fields
is still returned. The five top-level reads of
`TahliaBridge.capture_context` sit under a single `try`: when only the
`is_rendering` read fails (every other field being readable), the whole
capture returns the empty dict (`none` in the model), not a snapshot with
the remaining fields. -/
theorem claim4_counterexample :
    bridgeCaptureContextR readsBad = none ∧
    readsBad.selectedRead = some ["Cube"] ∧
    readsBad.activeRead = some (some "Cube") ∧
    readsBad.viewLayerRead = some "ViewLayer" ∧
    readsBad.modeRead = some "OBJECT" :=
  ⟨rfl, rfl, rfl, rfl, rfl⟩

/-- C4 amended. `capture_context` never surfaces an error to the caller (it
is a total function into `Option Snapshot`). In `TahliaBridge` the three
helper-captured fields (viewport settings, visible collections, custom
state) are defaulted field-locally on read failure, but if the read of any
of the five top-level fields (selected objects, active object, view layer,
mode, is-rendering) fails, the whole capture returns the empty dict instead
of a snapshot with the remaining fields. In `TahliaCore` there is no
field-local recovery at all: the capture returns the full snapshot when
every read succeeds and the empty dict when any read — top-level, viewport,
or visible-collections — fails. -/
theorem claim4_capture_failure (r : HostReads) :
    ((r.selectedRead ≠ none ∧ r.activeRead ≠ none ∧ r.viewLayerRead ≠ none ∧
      r.modeRead ≠ none ∧ r.isRenderingRead ≠ none) →
      bridgeCaptureContextR r = some
        { selected_objects := r.selectedRead.getD []
          active_object := (r.activeRead.getD none).getD ""
          view_layer := r.viewLayerRead.getD ""
          mode := r.modeRead.getD ""
          viewport_settings := bridgeCaptureViewportSettingsR r
          visible_collections := r.visibleColsRead.getD []
          is_rendering := r.isRenderingRead.getD false
          custom_state :=
            match r.customRead with
            | some (sn, fc, re) =>
              [("scene_name", sn), ("frame_current", toString fc), ("render_engine", re)]
            | none => [] }) ∧
    ((r.selectedRead = none ∨ r.activeRead = none ∨ r.viewLayerRead = none ∨
      r.modeRead = none ∨ r.isRenderingRead = none) →
      bridgeCaptureContextR r = none) ∧
    ((r.selectedRead ≠ none ∧ r.activeRead ≠ none ∧ r.viewLayerRead ≠ none ∧
      r.modeRead ≠ none ∧ (r.hasShading = true → r.shadingRead ≠ none) ∧
      r.overlayRead ≠ none ∧ r.visibleColsRead ≠ none ∧ r.isRenderingRead ≠ none) →
      coreCaptureContextR r = some
        { selected_objects := r.selectedRead.getD []
          active_object := (r.activeRead.getD none).getD ""
          view_layer := r.viewLayerRead.getD ""
          mode := r.modeRead.getD ""
          viewport_settings :=
            { shading :=
                some ((if r.hasShading then r.shadingRead else some "SOLID").getD "SOLID")
              overlay := some (if r.overlayRead.getD false then "WIREFRAME" else "SOLID") }
          visible_collections := r.visibleColsRead.getD []
          is_rendering := r.isRenderingRead.getD false
          custom_state := [] }) ∧
    ((r.selectedRead = none ∨ r.activeRead = none ∨ r.viewLayerRead = none ∨
      r.modeRead = none ∨ (r.hasShading = true ∧ r.shadingRead = none) ∨
      r.overlayRead = none ∨ r.visibleColsRead = none ∨ r.isRenderingRead = none) →
      coreCaptureContextR r = none) := by
  refine ⟨?_, ?_, ?_, ?_⟩
  · rintro ⟨h1, h2, h3, h4, h5⟩
    rcases hsel : r.selectedRead with _ | sel
    · exact absurd hsel h1
    rcases hact : r.activeRead with _ | act
    · exact absurd hact h2
    rcases hvl : r.viewLayerRead with _ | vl
    · exact absurd hvl h3
    rcases hmd : r.modeRead with _ | md
    · exact absurd hmd h4
    rcases hir : r.isRenderingRead with _ | ir
    · exact absurd hir h5
    simp only [bridgeCaptureContextR, hsel, hact, hvl, hmd, hir]
    cases act <;> simp
  · intro hfail
    unfold bridgeCaptureContextR
    rcases hsel : r.selectedRead with _ | sel <;>
      rcases hact : r.activeRead with _ | act <;>
      rcases hvl : r.viewLayerRead with _ | vl <;>
      rcases hmd : r.modeRead with _ | md <;>
      rcases hir : r.isRenderingRead with _ | ir <;>
      simp_all
  · rintro ⟨h1, h2, h3, h4, h5, h6, h7, h8⟩
    rcases hsel : r.selectedRead with _ | sel
    · exact absurd hsel h1
    rcases hact : r.activeRead with _ | act
    · exact absurd hact h2
    rcases hvl : r.viewLayerRead with _ | vl
    · exact absurd hvl h3
    rcases hmd : r.modeRead with _ | md
    · exact absurd hmd h4
    rcases hov : r.overlayRead with _ | ov
    · exact absurd hov h6
    rcases hvc : r.visibleColsRead with _ | vc
    · exact absurd hvc h7
    rcases hir : r.isRenderingRead with _ | ir
    · exact absurd hir h8
    by_cases hsh : r.hasShading
    · rcases hshr : r.shadingRead with _ | sh
      · exact absurd hshr (h5 hsh)
      · simp only [coreCaptureContextR, hsel, hact, hvl, hmd, hov, hvc, hir, hsh, hshr,
          if_true]
        cases act <;> simp [hsh, hshr]
    · have hshf : r.hasShading = false := by
        cases hb : r.hasShading
        · rfl
        · exact absurd hb hsh
      simp only [coreCaptureContextR, hsel, hact, hvl, hmd, hov, hvc, hir, hshf]
      cases act <;> simp [hshf]
  · intro hfail
    unfold coreCaptureContextR
    split
    · rcases hfail with hf | hf | hf | hf | hf | hf | hf | hf <;> simp_all
    · rfl

/-- Witness for the amended C4 on an all-successful read state, for both
implementations. -/
theorem claim4_capture_failure_witness :
    (readsOk.selectedRead ≠ none ∧ readsOk.activeRead ≠ none ∧
     readsOk.viewLayerRead ≠ none ∧ readsOk.modeRead ≠ none ∧
     readsOk.isRenderingRead ≠ none) ∧
    bridgeCaptureContextR readsOk = some
      { selected_objects := readsOk.selectedRead.getD []
        active_object := (readsOk.activeRead.getD none).getD ""
        view_layer := readsOk.viewLayerRead.getD ""
        mode := readsOk.modeRead.getD ""
        viewport_settings := bridgeCaptureViewportSettingsR readsOk
        visible_collections := readsOk.visibleColsRead.getD []
        is_rendering := readsOk.isRenderingRead.getD false
        custom_state :=
          match readsOk.customRead with
          | some (sn, fc, re) =>
            [("scene_name", sn), ("frame_current", toString fc), ("render_engine", re)]
          | none => [] } ∧
    coreCaptureContextR readsOk = some
      { selected_objects := readsOk.selectedRead.getD []
        active_object := (readsOk.activeRead.getD none).getD ""
        view_layer := readsOk.viewLayerRead.getD ""
        mode := readsOk.modeRead.getD ""
        viewport_settings :=
          { shading :=
              some ((if readsOk.hasShading then readsOk.shadingRead else some "SOLID").getD
                "SOLID")
            overlay := some (if readsOk.overlayRead.getD false then "WIREFRAME" else "SOLID") }
        visible_collections := readsOk.visibleColsRead.getD []
        is_rendering := readsOk.isRenderingRead.getD false
        custom_state := [] } :=
  ⟨by decide, (claim4_capture_failure readsOk).1 (by decide),
   (claim4_capture_failure readsOk).2.2.1 (by decide)⟩

/-- C5. A push below the limit captures the current context, appends it, and
returns `true`, increasing the depth by exactly one; a push issued when the
depth is already at the limit returns `false`, captures nothing, and leaves
the manager (hence the depth) unchanged. Stated for both implementations. -/
theorem claim5_push_depth (m : Manager) (h : Host) :
    (m.context_stack.length < m.max_context_stack_size →
      corePushContext m h
        = ({ m with context_stack := m.context_stack ++ [coreCaptureContext h] }, true) ∧
      bridgePushContext m h
        = ({ m with context_stack := m.context_stack ++ [bridgeCaptureContext h] }, true) ∧
      ((corePushContext m h).1).context_stack.length = m.context_stack.length + 1 ∧
      ((bridgePushContext m h).1).context_stack.length = m.context_stack.length + 1) ∧
    (m.context_stack.length = m.max_context_stack_size →
      corePushContext m h = (m, false) ∧ bridgePushContext m h = (m, false)) := by
  constructor
  · intro hlt
    refine ⟨?_, ?_, ?_, ?_⟩ <;> simp [corePushContext, bridgePushContext, hlt]
  · intro heq
    have hnlt : ¬ m.context_stack.length < m.max_context_stack_size := by omega
    exact ⟨by simp [corePushContext, hnlt], by simp [bridgePushContext, hnlt]⟩

/-- Witness for C5: a successful push on a fresh manager and a refused push
on a manager already at its limit. -/
theorem claim5_push_depth_witness :
    mgrOn.context_stack.length < mgrOn.max_context_stack_size ∧
    ((corePushContext mgrOn hostW).1).context_stack.length
      = mgrOn.context_stack.length + 1 ∧
    ((bridgePushContext mgrOn hostW).1).context_stack.length
      = mgrOn.context_stack.length + 1 ∧
    (corePushContext mgrOn hostW).2 = true ∧
    (bridgePushContext mgrOn hostW).2 = true ∧
    mgrFull.context_stack.length = mgrFull.max_context_stack_size ∧
    corePushContext mgrFull hostW = (mgrFull, false) ∧
    bridgePushContext mgrFull hostW = (mgrFull, false) :=
  ⟨by decide,
   ((claim5_push_depth mgrOn hostW).1 (by decide)).2.2.1,
   ((claim5_push_depth mgrOn hostW).1 (by decide)).2.2.2,
   by rw [((claim5_push_depth mgrOn hostW).1 (by decide)).1],
   by rw [((claim5_push_depth mgrOn hostW).1 (by decide)).2.1],
   by decide,
   ((claim5_push_depth mgrFull hostW).2 (by decide)).1,
   ((claim5_push_depth mgrFull hostW).2 (by decide)).2⟩

/-- C6. A pop on an empty stack returns `false` and changes neither the
manager nor the host; a pop on a non-empty stack removes exactly the most
recently pushed snapshot, restores it, and returns that restore call's
result. Stated for both implementations. -/
theorem claim6_pop (m : Manager) (h : Host) :
    (m.context_stack = [] →
      corePopContext m h = (m, h, false) ∧ bridgePopContext m h = (m, h, false)) ∧
    (∀ l c, m.context_stack = l ++ [c] →
      corePopContext m h
        = ({ m with context_stack := l },
           (coreRestoreContext c h).1, (coreRestoreContext c h).2) ∧
      bridgePopContext m h
        = ({ m with context_stack := l },
           (bridgeRestoreContext c h).1, (bridgeRestoreContext c h).2)) := by
  constructor
  · intro he
    exact ⟨by simp [corePopContext, he], by simp [bridgePopContext, he]⟩
  · intro l c hstack
    constructor
    · simp [corePopContext, hstack, List.getLast?_concat, List.dropLast_concat]
    · simp [bridgePopContext, hstack, List.getLast?_concat, List.dropLast_concat]

/-- Witness for C6: a pop on an empty stack and a pop on a singleton
stack. -/
theorem claim6_pop_witness :
    mgrOn.context_stack = [] ∧
    corePopContext mgrOn hostW = (mgrOn, hostW, false) ∧
    bridgePopContext mgrOn hostW = (mgrOn, hostW, false) ∧
    mgrFull.context_stack = [] ++ [snapW] ∧
    corePopContext mgrFull hostW
      = ({ mgrFull with context_stack := [] },
         (coreRestoreContext snapW hostW).1, (coreRestoreContext snapW hostW).2) ∧
    bridgePopContext mgrFull hostW
      = ({ mgrFull with context_stack := [] },
         (bridgeRestoreContext snapW hostW).1, (bridgeRestoreContext snapW hostW).2) :=
  ⟨rfl,
   ((claim6_pop mgrOn hostW).1 rfl).1,
   ((claim6_pop mgrOn hostW).1 rfl).2,
   rfl,
   ((claim6_pop mgrFull hostW).2 [] snapW rfl).1,
   ((claim6_pop mgrFull hostW).2 [] snapW rfl).2⟩

/-- A snapshot whose visible-collections set differs from the sample host's
current visibility flags. -/
def snapCols : Snapshot :=
  { selected_objects := []
    active_object := ""
    view_layer := "ViewLayer"
    mode := ""
    viewport_settings := { shading := none, overlay := none }
    visible_collections := ["CollB"]
    is_rendering := false
    custom_state := [] }

/-- C7 counterexample. The claim attributes the collection-visibility
restore to `restore_context` in both classes, but
`TahliaCore.restore_context` has no collection step at all: restoring a
snapshot whose visible set is `{CollB}` on a host where `CollA` is visible
and `CollB` hidden leaves the host's flags untouched instead of setting
`CollA` hidden and `CollB` visible as the claim requires. -/
theorem claim7_counterexample :
    ((coreRestoreContext snapCols hostW).1).collections
      = [("CollA", false), ("CollB", true)] ∧
    ([("CollA", false), ("CollB", true)] : List (String × Bool))
      ≠ [("CollA", true), ("CollB", false)] :=
  ⟨by decide, by decide⟩

/-- C7 amended. `TahliaBridge.restore_context` restores collection
visibility exactly as the claim states: every collection the host currently
has gets `hidden = (its identifier is not in the snapshot's
visible-collections set)`, and snapshot entries for collections that no
longer exist are ignored (the rewrite only ranges over the host's current
collections). `TahliaCore.restore_context` does not touch collection
visibility. -/
theorem claim7_restore_collections (s : Snapshot) (h : Host) :
    ((bridgeRestoreContext s h).1).collections
      = h.collections.map (fun c => (c.1, decide (c.1 ∉ s.visible_collections))) ∧
    ((coreRestoreContext s h).1).collections = h.collections :=
  ⟨bridgeRestoreContext_collections s h, coreRestoreContext_collections s h⟩

@[simp] theorem bridgeCaptureContext_selected_objects (h : Host) :
    (bridgeCaptureContext h).selected_objects = h.selected := rfl

@[simp] theorem coreCaptureContext_selected_objects (h : Host) :
    (coreCaptureContext h).selected_objects = h.selected := rfl

@[simp] theorem bridgeCaptureContext_active_object (h : Host) :
    (bridgeCaptureContext h).active_object = h.active.getD "" := by
  rcases hA : h.active with _ | a <;> simp [bridgeCaptureContext, hA]

@[simp] theorem coreCaptureContext_active_object (h : Host) :
    (coreCaptureContext h).active_object = h.active.getD "" := by
  rcases hA : h.active with _ | a <;> simp [coreCaptureContext, hA]

/-- C8. Capturing and immediately restoring with no intervening host
mutation leaves the observable selection, active object, and collection
visibility unchanged, for both implementations, on any host whose selection
has no duplicates and refers to existing objects, whose active object (when
present) has a non-empty existing name, and whose collection names are
distinct. -/
theorem claim8_roundtrip (h : Host)
    (hnd : h.selected.Nodup)
    (hsub : ∀ n ∈ h.selected, n ∈ h.objects)
    (hact : ∀ a, h.active = some a → a ≠ "" ∧ a ∈ h.objects)
    (hcols : (h.collections.map Prod.fst).Nodup) :
    ((bridgeRestoreContext (bridgeCaptureContext h) h).1).selected = h.selected ∧
    ((bridgeRestoreContext (bridgeCaptureContext h) h).1).active = h.active ∧
    ((bridgeRestoreContext (bridgeCaptureContext h) h).1).collections = h.collections ∧
    ((coreRestoreContext (coreCaptureContext h) h).1).selected = h.selected ∧
    ((coreRestoreContext (coreCaptureContext h) h).1).active = h.active ∧
    ((coreRestoreContext (coreCaptureContext h) h).1).collections = h.collections := by
  refine ⟨?_, ?_, ?_, ?_, ?_, ?_⟩
  · rw [bridgeRestoreContext_selected]
    by_cases hsel : h.selected = []
    · simp [bridgeRestoreSelected, hsel]
    · unfold bridgeRestoreSelected
      rw [show (bridgeCaptureContext h).selected_objects = h.selected from rfl, if_pos hsel]
      rw [selectFold_selected_fresh h.selected _ hnd (by simp)]
      simp only [List.nil_append]
      rw [show ({ restoreActive (bridgeCaptureContext h) h with selected := [] } : Host).objects
            = h.objects by simp]
      exact List.filter_eq_self.mpr (fun n hn => by simpa using hsub n hn)
  · rw [bridgeRestoreContext_active]
    rcases hA : h.active with _ | a
    · simp [hA]
    · obtain ⟨hne, hmem⟩ := hact a hA
      simp [hA, hne, hmem]
  · rw [bridgeRestoreContext_collections]
    exact restore_cols_eq h.collections hcols
  · rw [coreRestoreContext_selected]
    by_cases hsel : h.selected = []
    · simp [coreRestoreSelected, hsel]
    · unfold coreRestoreSelected
      rw [show (coreCaptureContext h).selected_objects = h.selected from rfl, if_pos hsel]
      rw [selectFold_eq_self h.selected _ (fun n hn => by simpa using hn)]
      simp
  · rw [coreRestoreContext_active]
    rcases hA : h.active with _ | a
    · simp [hA]
    · obtain ⟨hne, hmem⟩ := hact a hA
      simp [hA, hne, hmem]
  · exact coreRestoreContext_collections _ _

/-- Witness for C8 on the sample host. -/
theorem claim8_roundtrip_witness :
    ((bridgeRestoreContext (bridgeCaptureContext hostW) hostW).1).selected = hostW.selected ∧
    ((bridgeRestoreContext (bridgeCaptureContext hostW) hostW).1).active = hostW.active ∧
    ((bridgeRestoreContext (bridgeCaptureContext hostW) hostW).1).collections
      = hostW.collections ∧
    ((coreRestoreContext (coreCaptureContext hostW) hostW).1).selected = hostW.selected ∧
    ((coreRestoreContext (coreCaptureContext hostW) hostW).1).active = hostW.active ∧
    ((coreRestoreContext (coreCaptureContext hostW) hostW).1).collections
      = hostW.collections :=
  claim8_roundtrip hostW (by decide) (by decide)
    (by
      intro a ha
      rw [show hostW.active = some "Cube" from rfl] at ha
      injection ha with h2
      subst h2
      exact ⟨by decide, by decide⟩)
    (by decide)

/-- C9. Changing the stack-size limit rewrites only the limit: the existing
stack (hence its depth) is untouched even when the new limit is below the
current depth; afterwards a push is refused exactly while the depth is at or
above the new limit, and pop and clear commute with the limit change. -/
theorem claim9_set_max (m : Manager) (k : Nat) (h : Host) :
    (setMaxContextStackSize m k).context_stack = m.context_stack ∧
    ((corePushContext (setMaxContextStackSize m k) h).2 = false
      ↔ k ≤ m.context_stack.length) ∧
    ((bridgePushContext (setMaxContextStackSize m k) h).2 = false
      ↔ k ≤ m.context_stack.length) ∧
    corePopContext (setMaxContextStackSize m k) h
      = (setMaxContextStackSize ((corePopContext m h).1) k,
         ((corePopContext m h).2.1), ((corePopContext m h).2.2)) ∧
    bridgePopContext (setMaxContextStackSize m k) h
      = (setMaxContextStackSize ((bridgePopContext m h).1) k,
         ((bridgePopContext m h).2.1), ((bridgePopContext m h).2.2)) ∧
    clearContextStack (setMaxContextStackSize m k)
      = setMaxContextStackSize (clearContextStack m) k := by
  refine ⟨rfl, ?_, ?_, ?_, ?_, rfl⟩
  · by_cases hlt : m.context_stack.length < k
    · simp [corePushContext, setMaxContextStackSize, hlt]
    · simp [corePushContext, setMaxContextStackSize, hlt]
      omega
  · by_cases hlt : m.context_stack.length < k
    · simp [bridgePushContext, setMaxContextStackSize, hlt]
    · simp [bridgePushContext, setMaxContextStackSize, hlt]
      omega
  · cases hc : m.context_stack.getLast?
    · simp [corePopContext, setMaxContextStackSize, hc]
    · simp [corePopContext, setMaxContextStackSize, hc]
  · cases hc : m.context_stack.getLast?
    · simp [bridgePopContext, setMaxContextStackSize, hc]
    · simp [bridgePopContext, setMaxContextStackSize, hc]

/-- C10. A missing active object is encoded as the empty string by
`capture_context`, and `restore_context` changes the host's active object
only when the snapshot's active-object field holds a non-empty name that
still exists among the host's objects, leaving it unchanged otherwise (in
particular for the empty string). Stated for both implementations. -/
theorem claim10_active_encoding (h : Host) (s : Snapshot) :
    (bridgeCaptureContext h).active_object = h.active.getD "" ∧
    (coreCaptureContext h).active_object = h.active.getD "" ∧
    (bridgeCaptureContext { h with active := none }).active_object = "" ∧
    ((bridgeRestoreContext s h).1).active
      = (if s.active_object ≠ "" ∧ s.active_object ∈ h.objects then some s.active_object
         else h.active) ∧
    ((coreRestoreContext s h).1).active
      = (if s.active_object ≠ "" ∧ s.active_object ∈ h.objects then some s.active_object
         else h.active) :=
  ⟨bridgeCaptureContext_active_object h, coreCaptureContext_active_object h,
   by simp, bridgeRestoreContext_active s h, coreRestoreContext_active s h⟩

end Tahlia
